import Mathlib

/-!
Verification of the makiko SSH client core: a shallow embedding of the
negotiation state machine (`src/client/negotiate.rs`), the public channel-open
entry point (`src/client/client.rs`) and the ssh-ed25519 signature check
(`src/pubkey/ed25519.rs`), together with theorems checking the natural-language
specification against these definitions.

Bytes are modelled as `List Nat` (each element a byte value), byte strings and
name lists per RFC 4253, machine counters as `Nat` (they are monotone `u64`
values in the code, so no wrap-around is reachable), and time instants as `Nat`.
External collaborators (hash functions, the kex object, the Ed25519 primitive,
oneshot channels) are modelled as explicit parameters or oracle inputs.
-/

namespace Makiko

/-- Errors of the client, mirroring `Error` in `src/error.rs` as referenced by
the three embedded source files. `Panic` models a Rust `unwrap`/`assert!`
failure. -/
inductive Err where
  | Protocol (msg : String)
  | AlgoNegotiateErr (algo_name : String) (our_algos : List String) (their_algos : List String)
  | PubkeyAccept
  | PubkeyFormat
  | Decode (msg : String)
  | Signature
  | RekeyRejected
  | Crypto (msg : String)
  | PacketNotImplemented (msg_id : Nat)
  | Panic (msg : String)
deriving DecidableEq

/-! ## Codec primitives

The packet codec (`src/codec.rs`) is not among the given source files; the
following definitions are modelled from the spec, section 6: "strings are
`u32 length | bytes`; name-lists are comma-separated US-ASCII within a string;
`mpint` is two's-complement big-endian with leading zero where high bit set".
-/

/-- Modelled from the spec: big-endian encoding of a `u32` (codec `put_u32`). -/
def encodeU32 (n : Nat) : List Nat :=
  [n / 2 ^ 24 % 256, n / 2 ^ 16 % 256, n / 2 ^ 8 % 256, n % 256]

/-- Modelled from the spec: boolean encoding (codec `put_bool`). -/
def encodeBool (b : Bool) : List Nat :=
  [if b then 1 else 0]

/-- Modelled from the spec: string encoding, `u32 length | bytes`
(codec `put_str` / `put_bytes`). -/
def encodeString (bytes : List Nat) : List Nat :=
  encodeU32 bytes.length ++ bytes

/-- Byte list of an ASCII string literal. -/
def strBytes (s : String) : List Nat :=
  s.toList.map Char.toNat

/-- Modelled from the spec: name-list encoding, comma-separated names inside a
string (codec `put_name_list`). -/
def encodeNameList (names : List String) : List Nat :=
  encodeString (strBytes (String.intercalate "," names))

/-- Minimal big-endian byte representation of a natural number (empty for 0). -/
def natBEBytes (n : Nat) : List Nat :=
  if h : n = 0 then []
  else natBEBytes (n / 256) ++ [n % 256]
decreasing_by exact Nat.div_lt_self (Nat.pos_of_ne_zero h) (by omega)

/-- Modelled from the spec: `mpint` body, two's-complement big-endian with a
leading zero byte where the high bit is set (nonnegative values only, as
produced for the shared secret). -/
def mpintBytes (n : Nat) : List Nat :=
  let bs := natBEBytes n
  match bs with
  | [] => []
  | b :: _ => if 128 ≤ b then 0 :: bs else bs

/-- Modelled from the spec: full `mpint` encoding with its length word
(codec `put_biguint`). -/
def mpintEnc (n : Nat) : List Nat :=
  encodeU32 (mpintBytes n).length ++ mpintBytes n

/-- Modelled from the spec: codec `PacketDecode::get_u32`, reading a big-endian
`u32` from the head of a byte list. -/
def getU32 : List Nat → Except Err (Nat × List Nat)
  | b0 :: b1 :: b2 :: b3 :: rest =>
      .ok (b0 * 2 ^ 24 + b1 * 2 ^ 16 + b2 * 2 ^ 8 + b3, rest)
  | _ => .error (.Decode "unexpected end of packet")

/-- Modelled from the spec: codec `PacketDecode::get_byte_array`/`get_raw`,
reading exactly `n` raw bytes. -/
def getRaw (n : Nat) (l : List Nat) : Except Err (List Nat × List Nat) :=
  if n ≤ l.length then .ok (l.take n, l.drop n)
  else .error (.Decode "unexpected end of packet")

/-- Modelled from the spec: codec `PacketDecode::get_string`, a `u32` length
followed by that many bytes. -/
def getString (l : List Nat) : Except Err (List Nat × List Nat) := do
  let (n, rest) ← getU32 l
  getRaw n rest

/-! ## ssh-ed25519 signature verification (`src/pubkey/ed25519.rs`) -/

/-- Decoded public key as passed to `verify`: either an Ed25519 key or a key of
another algorithm (mirrors the `Pubkey` enum match in `ed25519.rs`). -/
inductive PubkeyM where
  | Ed25519 (key : List Nat)
  | Other
deriving DecidableEq

/-- The bytes of the string "ssh-ed25519". -/
def sshEd25519Bytes : List Nat := strBytes "ssh-ed25519"

/-- Embedding of `verify` in `src/pubkey/ed25519.rs`. The Ed25519 primitive
`ed25519_dalek::PublicKey::verify_strict` is abstracted as the boolean
parameter `verify_strict` taking key bytes, message and 64-byte signature.
Returns `Unit` standing for the zero-sized `SignatureVerified` witness. -/
def ed25519_verify (verify_strict : List Nat → List Nat → List Nat → Bool)
    (pubkey : PubkeyM) (message : List Nat) (signature : List Nat) :
    Except Err Unit :=
  match pubkey with
  | .Other => .error .PubkeyFormat
  | .Ed25519 key =>
    match getString signature with
    | .error e => .error e
    | .ok (fmt, rest) =>
      if fmt ≠ sshEd25519Bytes then
        .error (.Decode "expected signature format ssh-ed25519")
      else
        match getRaw 64 rest with
        | .error e => .error e
        | .ok (signature_data, _) =>
          if verify_strict key message signature_data then .ok ()
          else .error .Signature

/-! ## Algorithm descriptors and negotiation (`src/client/negotiate.rs`) -/

/-- Variant of a MAC algorithm (`MacAlgoVariant` in `src/mac.rs`). -/
inductive MacVariantM where
  | EncryptAndMac
  | EncryptThenMac
deriving DecidableEq

/-- Descriptor of a MAC algorithm (`MacAlgo` in `src/mac.rs`); the `make_mac`
constructor of the keyed MAC object is not modelled. -/
structure MacAlgoM where
  name : String
  key_len : Nat
  tag_len : Nat
  variant : MacVariantM
deriving DecidableEq

/-- Modelled from the spec: the sentinel `mac::INVALID` MAC algorithm
("plus sentinel `INVALID` used when paired with an AEAD cipher", spec section
6); `src/mac.rs` is not among the given sources. Only its identity matters to
the claims. -/
def macINVALID : MacAlgoM :=
  { name := "invalid", key_len := 0, tag_len := 0, variant := .EncryptAndMac }

/-- Variant of a cipher algorithm (`CipherAlgoVariant` in `src/cipher.rs`):
`Standard` carries encrypt/decrypt constructors (not modelled), `Aead` also
carries its tag length. -/
inductive CipherVariantM where
  | Standard
  | Aead (tag_len : Nat)
deriving DecidableEq

/-- Embedding of `CipherAlgoVariant::is_aead`. -/
def CipherVariantM.is_aead : CipherVariantM → Bool
  | .Standard => false
  | .Aead _ => true

/-- Descriptor of a cipher algorithm (`CipherAlgo` in `src/cipher.rs`). -/
structure CipherAlgoM where
  name : String
  key_len : Nat
  iv_len : Nat
  block_len : Nat
  variant : CipherVariantM
deriving DecidableEq

/-- Inner loop of `negotiate_algo` in `src/client/negotiate.rs` (lines
356-363): the first of our algorithms whose name also occurs anywhere in their
name list. `nameOf` stands for the `NamedAlgo::name` method. -/
def algoFirstMatch {A : Type} (nameOf : A → String) (theirAlgos : List String) :
    List A → Option A
  | [] => none
  | a :: rest =>
      if nameOf a ∈ theirAlgos then some a
      else algoFirstMatch nameOf theirAlgos rest

/-- Embedding of the generic `negotiate_algo` in `src/client/negotiate.rs`
(lines 351-370). -/
def negotiate_algo {A : Type} (nameOf : A → String) (ourAlgos : List A)
    (theirAlgos : List String) (name : String) : Except Err A :=
  match algoFirstMatch nameOf theirAlgos ourAlgos with
  | some a => .ok a
  | none => .error (.AlgoNegotiateErr name (ourAlgos.map nameOf) theirAlgos)

/-- Embedding of `negotiate_mac_algo` in `src/client/negotiate.rs` (lines
372-383). -/
def negotiate_mac_algo (cipher_algo : CipherAlgoM) (ourAlgos : List MacAlgoM)
    (theirAlgos : List String) (name : String) : Except Err MacAlgoM :=
  if cipher_algo.variant.is_aead then .ok macINVALID
  else negotiate_algo MacAlgoM.name ourAlgos theirAlgos name

/-- Our retained KEXINIT data (`OurKexInit` in `src/client/negotiate.rs`).
Kex and host-key algorithm descriptors are modelled by their names. -/
structure OurKexInitM where
  payload : List Nat
  kex_algos : List String
  server_pubkey_algos : List String
  cipher_algos_cts : List CipherAlgoM
  cipher_algos_stc : List CipherAlgoM
  mac_algos_cts : List MacAlgoM
  mac_algos_stc : List MacAlgoM
  packet_seq : Nat
deriving DecidableEq

/-- The peer's parsed KEXINIT (`TheirKexInit` in `src/client/negotiate.rs`). -/
structure TheirKexInitM where
  payload : List Nat
  kex_algos : List String
  server_pubkey_algos : List String
  cipher_algos_cts : List String
  cipher_algos_stc : List String
  mac_algos_cts : List String
  mac_algos_stc : List String
deriving DecidableEq

/-- The negotiated algorithm record (`Algos` in `src/client/negotiate.rs`). -/
structure AlgosM where
  kex : String
  server_pubkey : String
  cipher_cts : CipherAlgoM
  cipher_stc : CipherAlgoM
  mac_cts : MacAlgoM
  mac_stc : MacAlgoM
deriving DecidableEq

/-- Embedding of `negotiate_algos` in `src/client/negotiate.rs` (lines
350-403), applied to the two stored KEXINIT records. -/
def negotiate_algos (our : OurKexInitM) (their : TheirKexInitM) :
    Except Err AlgosM :=
  match negotiate_algo id our.kex_algos their.kex_algos "key exchange" with
  | .error e => .error e
  | .ok kex =>
  match negotiate_algo id our.server_pubkey_algos their.server_pubkey_algos
      "server public key" with
  | .error e => .error e
  | .ok server_pubkey =>
  match negotiate_algo CipherAlgoM.name our.cipher_algos_cts
      their.cipher_algos_cts "cipher client-to-server" with
  | .error e => .error e
  | .ok cipher_cts =>
  match negotiate_algo CipherAlgoM.name our.cipher_algos_stc
      their.cipher_algos_stc "cipher server-to-client" with
  | .error e => .error e
  | .ok cipher_stc =>
  match negotiate_mac_algo cipher_cts our.mac_algos_cts their.mac_algos_cts
      "mac client-to-server" with
  | .error e => .error e
  | .ok mac_cts =>
  match negotiate_mac_algo cipher_stc our.mac_algos_stc their.mac_algos_stc
      "mac server-to-client" with
  | .error e => .error e
  | .ok mac_stc =>
    .ok { kex := kex, server_pubkey := server_pubkey, cipher_cts := cipher_cts,
          cipher_stc := cipher_stc, mac_cts := mac_cts, mac_stc := mac_stc }

/-! ## Key derivation (`src/client/negotiate.rs`, `derive_key`) -/

/-- Abstraction of the kex object's `compute_hash` method: a hash function on
byte lists whose digests are nonempty (every concrete SSH hash has a fixed
positive digest length). -/
structure HashFn where
  f : List Nat → List Nat
  len_pos : ∀ x, 0 < (f x).length

/-- The `while key.len() < key_len` loop of `derive_key` (`src/client/negotiate.rs`
lines 507-511): while the accumulated key is too short, append
`HASH(to_hash_prefix ∥ key)`. `pre` is the bytes of `to_hash_prefix`, i.e.
`mpint(K) ∥ H`. -/
def derive_loop (h : HashFn) (pre : List Nat) (key_len : Nat) (key : List Nat) :
    List Nat :=
  if _hlt : key.length < key_len then
    derive_loop h pre key_len (key ++ h.f (pre ++ key))
  else key
termination_by key_len - key.length
decreasing_by
  have hp := h.len_pos (pre ++ key)
  simp only [List.length_append]
  omega

/-- Embedding of `derive_key` in `src/client/negotiate.rs` (lines 489-515),
with the state unwraps factored out: `k` is the shared secret, `hh` the
exchange hash, `key_type` the single letter byte, `sid` the session id. -/
def derive_key (h : HashFn) (k : Nat) (hh : List Nat) (key_type : Nat)
    (sid : List Nat) (key_len : Nat) : List Nat :=
  let pre := mpintEnc k ++ hh
  let key := h.f (pre ++ [key_type] ++ sid)
  (derive_loop h pre key_len key).take key_len

/-- The concatenation `K1 ∥ … ∥ Kn` of the RFC 4253 section 7.2 key blocks as
the spec words them: `K1 = HASH(K ∥ H ∥ X ∥ session_id)` and
`K(n+1) = HASH(K ∥ H ∥ K1 ∥ … ∥ Kn)` (`pre` is `mpint(K) ∥ H`). Stated from
the spec for comparison with `derive_key`. -/
def key_blocks (h : HashFn) (pre : List Nat) (key_type : Nat) (sid : List Nat) :
    Nat → List Nat
  | 0 => []
  | 1 => h.f (pre ++ [key_type] ++ sid)
  | n + 2 =>
      key_blocks h pre key_type sid (n + 1) ++
        h.f (pre ++ key_blocks h pre key_type sid (n + 1))

/-- The hash inputs for key derivation taken from the client state: the kex
hash function, the shared secret `K`, the exchange hash `H` and the session
id, as unwrapped at the top of `derive_key`. -/
structure KeyCtx where
  h : HashFn
  k : Nat
  hh : List Nat
  sid : List Nat

/-- The key material derived for one direction: cipher key, cipher IV, and the
MAC key (absent for an AEAD cipher). -/
structure DirectionKeys where
  cipher_key : List Nat
  cipher_iv : List Nat
  mac_key : Option (List Nat)

/-- The `derive_key` calls of `send_new_keys` (`src/client/negotiate.rs` lines
454-478), client-to-server direction: letters `'C'` (67) for the encryption
key, `'A'` (65) for the IV, `'E'` (69) for the MAC key (only for a non-AEAD
cipher). -/
def send_new_keys_keys (ctx : KeyCtx) (algos : AlgosM) : DirectionKeys :=
  { cipher_key := derive_key ctx.h ctx.k ctx.hh 67 ctx.sid algos.cipher_cts.key_len
    cipher_iv := derive_key ctx.h ctx.k ctx.hh 65 ctx.sid algos.cipher_cts.iv_len
    mac_key :=
      match algos.cipher_cts.variant with
      | .Standard => some (derive_key ctx.h ctx.k ctx.hh 69 ctx.sid algos.mac_cts.key_len)
      | .Aead _ => none }

/-- The `derive_key` calls of `recv_new_keys` (`src/client/negotiate.rs` lines
411-452), server-to-client direction: letters `'D'` (68) for the encryption
key, `'B'` (66) for the IV, `'F'` (70) for the MAC key (only for a non-AEAD
cipher). -/
def recv_new_keys_keys (ctx : KeyCtx) (algos : AlgosM) : DirectionKeys :=
  { cipher_key := derive_key ctx.h ctx.k ctx.hh 68 ctx.sid algos.cipher_stc.key_len
    cipher_iv := derive_key ctx.h ctx.k ctx.hh 66 ctx.sid algos.cipher_stc.iv_len
    mac_key :=
      match algos.cipher_stc.variant with
      | .Standard => some (derive_key ctx.h ctx.k ctx.hh 70 ctx.sid algos.mac_stc.key_len)
      | .Aead _ => none }

/-! ## Negotiation state machine (`src/client/negotiate.rs`)

The mutable `ClientState` pieces touched by `negotiate.rs` are embedded as
`CStateM`; external effects (packets fed to the send pipe, events emitted,
oneshot resolutions, cipher installs) are returned as an explicit effect list;
the external collaborators (rng cookie, the boxed kex object's methods, the
event queue and oneshot channel polls) are supplied by a `PumpOracle`. Boxed
trait objects and oneshot endpoints stored in the state are modelled by
presence flags (`Bool`) or identifiers (`Nat` for `done_txs` senders).
-/

/-- The negotiation `State` enum in `src/client/negotiate.rs` (lines 39-47). -/
inductive NState where
  | Idle
  | KexInit
  | Kex
  | AcceptPubkey
  | NewKeys
  | Done
deriving DecidableEq

/-- Kex output (`KexOutput` in `src/kex.rs` as used by `negotiate.rs`). -/
structure KexOutputM where
  shared_secret : Nat
  exchange_hash : List Nat
  server_pubkey : List Nat
  server_exchange_hash_sign : List Nat
deriving DecidableEq

/-- The `NegotiateState` struct in `src/client/negotiate.rs` (lines 22-37).
`kex` records whether the boxed kex object is present; `signature_verified`,
`pubkey_event`, `accepted_rx` and `pubkey_accepted` record presence of the
corresponding `Option` fields; `done_txs` is the list of waiting oneshot
senders, by identifier. -/
structure NegotiateStateM where
  state : NState
  our_kex_init : Option OurKexInitM
  their_kex_init : Option TheirKexInitM
  algos : Option AlgosM
  kex : Bool
  kex_output : Option KexOutputM
  signature_verified : Bool
  pubkey_event : Bool
  accepted_rx : Bool
  pubkey_accepted : Bool
  new_keys_sent : Bool
  new_keys_recvd : Bool
  done_txs : List Nat
deriving DecidableEq

/-- Embedding of `NegotiateState::default()`: `State::Idle`, all options `None`, flags
false, no waiting senders. -/
def defaultNegotiateState : NegotiateStateM :=
  { state := .Idle, our_kex_init := none, their_kex_init := none,
    algos := none, kex := false, kex_output := none,
    signature_verified := false, pubkey_event := false, accepted_rx := false,
    pubkey_accepted := false, new_keys_sent := false, new_keys_recvd := false,
    done_txs := [] }

/-- Embedding of `init_negotiate` (lines 88-90): the default state with
`state = KexInit`. -/
def init_negotiate : NegotiateStateM :=
  { defaultNegotiateState with state := .KexInit }

/-- The `LastKex` struct (lines 80-86); `instant` is a `Nat` time stamp. -/
structure LastKexM where
  done : Bool
  recvd_bytes : Nat
  sent_bytes : Nat
  instant : Nat
deriving DecidableEq

/-- Embedding of `init_last_kex` (lines 96-103) at start instant `now`. -/
def init_last_kex (now : Nat) : LastKexM :=
  { done := false, recvd_bytes := 0, sent_bytes := 0, instant := now }

/-- The configuration fields referenced by `negotiate.rs`: the ordered
preference lists (`ClientConfig` in `src/client/client.rs`) and the rekey
thresholds. -/
structure ConfigM where
  kex_algos : List String
  server_pubkey_algos : List String
  cipher_algos : List CipherAlgoM
  mac_algos : List MacAlgoM
  rekey_after_bytes : Nat
  rekey_after_duration : Nat
deriving DecidableEq

/-- The slice of `ClientState` used by `negotiate.rs`: configuration, session
id, negotiation sub-state, last-kex record, the authenticated flag
(`auth::is_authenticated`), the codec's cumulative byte counters, and the send
pipe's next packet sequence number (`feed_packet` return value). -/
structure CStateM where
  config : ConfigM
  session_id : Option (List Nat)
  negotiate_st : NegotiateStateM
  last_kex : LastKexM
  authenticated : Bool
  recvd_bytes : Nat
  sent_bytes : Nat
  send_seq : Nat
deriving DecidableEq

/-- Observable side effects of a negotiation step. -/
inductive Effect where
  | FeedPacket (payload : List Nat)
  | EmitPubkeyEvent
  | ResolveDoneOk (tx : Nat)
  | ResolveDoneErr (tx : Nat) (e : Err)
  | SetEncrypt (keys : DirectionKeys) (block_len tag_len : Nat)
  | SetDecrypt (keys : DirectionKeys) (block_len tag_len : Nat)
  | SendExtInfo
  | Wakeup

/-- The pump poll result (`Pump` in `src/client/pump.rs`). -/
inductive Pump where
  | Progress
  | Pending
deriving DecidableEq

/-- Embedding of `start_kex` (lines 531-539): from `Idle`, move to `KexInit`
and wake the client; any supplied oneshot sender is queued on `done_txs`. -/
def start_kex (st : CStateM) (done_tx : Option Nat) : CStateM × List Effect :=
  let r :=
    if st.negotiate_st.state = .Idle then
      ({ st with negotiate_st := { st.negotiate_st with state := .KexInit } },
       [Effect.Wakeup])
    else (st, ([] : List Effect))
  match done_tx with
  | some tx =>
      ({ r.1 with negotiate_st :=
          { r.1.negotiate_st with done_txs := r.1.negotiate_st.done_txs ++ [tx] } },
       r.2)
  | none => r

/-- The KEXINIT payload built by `send_kex_init` (lines 249-270): message byte
20, the random cookie, the ten name lists (kex with `ext-info-c` appended per
RFC 8308, compression "none", empty languages), `first_kex_packet_follows =
false` and `reserved = 0`. -/
def kexInitPayload (cfg : ConfigM) (cookie : List Nat) : List Nat :=
  [20] ++ cookie
    ++ encodeNameList (cfg.kex_algos ++ ["ext-info-c"])
    ++ encodeNameList cfg.server_pubkey_algos
    ++ encodeNameList (cfg.cipher_algos.map CipherAlgoM.name)
    ++ encodeNameList (cfg.cipher_algos.map CipherAlgoM.name)
    ++ encodeNameList (cfg.mac_algos.map MacAlgoM.name)
    ++ encodeNameList (cfg.mac_algos.map MacAlgoM.name)
    ++ encodeNameList ["none"]
    ++ encodeNameList ["none"]
    ++ encodeNameList []
    ++ encodeNameList []
    ++ encodeBool false
    ++ encodeU32 0

/-- Embedding of `send_kex_init` (lines 242-285): feed the KEXINIT payload to
the send pipe (recording its sequence number) and retain our algorithm lists
bit-exact. -/
def send_kex_init (st : CStateM) (cookie : List Nat) :
    CStateM × OurKexInitM × List Effect :=
  let payload := kexInitPayload st.config cookie
  let oki : OurKexInitM :=
    { payload := payload
      kex_algos := st.config.kex_algos
      server_pubkey_algos := st.config.server_pubkey_algos
      cipher_algos_cts := st.config.cipher_algos
      cipher_algos_stc := st.config.cipher_algos
      mac_algos_cts := st.config.mac_algos
      mac_algos_stc := st.config.mac_algos
      packet_seq := st.send_seq }
  ({ st with send_seq := st.send_seq + 1 }, oki, [Effect.FeedPacket payload])

/-- The parsed fields of a received KEXINIT packet, as read by `recv_kex_init`
(lines 287-315) after decoding succeeded. -/
structure KexInitPacketM where
  payload : List Nat
  kex_algos : List String
  server_pubkey_algos : List String
  cipher_algos_cts : List String
  cipher_algos_stc : List String
  mac_algos_cts : List String
  mac_algos_stc : List String
  first_kex_packet_follows : Bool
  reserved : Nat
deriving DecidableEq

/-- Embedding of `recv_kex_init` (lines 287-326): reject a packet with
`first_kex_packet_follows` set, otherwise store the peer's KEXINIT when in
`Idle` or `KexInit` with no peer KEXINIT stored yet. -/
def recv_kex_init (st : CStateM) (p : KexInitPacketM) : Except Err CStateM :=
  if p.first_kex_packet_follows then
    .error (.Protocol "received SSH_MSG_KEXINIT with first_kex_packet_follows set")
  else
    match st.negotiate_st.state, st.negotiate_st.their_kex_init with
    | .Idle, none | .KexInit, none =>
        .ok { st with negotiate_st :=
          { st.negotiate_st with
            their_kex_init := some
              { payload := p.payload
                kex_algos := p.kex_algos
                server_pubkey_algos := p.server_pubkey_algos
                cipher_algos_cts := p.cipher_algos_cts
                cipher_algos_stc := p.cipher_algos_stc
                mac_algos_cts := p.mac_algos_cts
                mac_algos_stc := p.mac_algos_stc }
            state := .KexInit } }
    | _, _ => .error (.Protocol "received SSH_MSG_KEXINIT during negotiation")

/-- Embedding of `recv_unimplemented` (lines 328-348). The returned `Bool` is
the function's `Ok` value (whether the packet was consumed); the effect list
carries the `RekeyRejected` resolutions of the waiting rekey senders. -/
def recv_unimplemented (st : CStateM) (packet_seq : Nat) :
    Except Err (CStateM × Bool × List Effect) :=
  match st.negotiate_st.our_kex_init with
  | some oki =>
      if oki.packet_seq = packet_seq then
        if st.negotiate_st.their_kex_init.isSome then
          .error (.Protocol "peer rejected our SSH_MSG_KEX_INIT, but they sent their SSH_MSG_KEX_INIT")
        else if !st.last_kex.done then
          .error (.Protocol "peer rejected our first SSH_MSG_KEX_INIT")
        else
          .ok ({ st with negotiate_st := defaultNegotiateState },
               true,
               st.negotiate_st.done_txs.map fun tx =>
                 Effect.ResolveDoneErr tx Err.RekeyRejected)
      else .ok (st, false, [])
  | none => .ok (st, false, [])

/-- The state unwraps at the top of `derive_key` (lines 492-494): the kex
object must be present, and `kex_output` and `session_id` must be set; their
data forms the `KeyCtx`. -/
def keyCtxOf (st : CStateM) (h : HashFn) : Except Err KeyCtx :=
  if !st.negotiate_st.kex then .error (.Panic "kex unwrap failed")
  else
    match st.negotiate_st.kex_output, st.session_id with
    | some ko, some sid =>
        .ok { h := h, k := ko.shared_secret, hh := ko.exchange_hash, sid := sid }
    | _, _ => .error (.Panic "kex_output or session_id unwrap failed")

/-- Embedding of `recv_new_keys` (lines 411-452): check the state and the
`new_keys_recvd` flag, derive the server-to-client keys (letters D/B/F) and
install the packet decryptor. `h` abstracts the kex object's `compute_hash`. -/
def recv_new_keys (st : CStateM) (h : HashFn) :
    Except Err (CStateM × List Effect) :=
  match st.negotiate_st.state with
  | .Kex | .AcceptPubkey | .NewKeys =>
      if st.negotiate_st.new_keys_recvd then
        .error (.Protocol "received SSH_MSG_NEWKEYS twice")
      else
        match st.negotiate_st.algos with
        | none => .error (.Panic "algos unwrap failed")
        | some algos =>
            match keyCtxOf st h with
            | .error e => .error e
            | .ok ctx =>
                let keys := recv_new_keys_keys ctx algos
                let tag_len :=
                  match algos.cipher_stc.variant with
                  | .Standard => algos.mac_stc.tag_len
                  | .Aead t => t
                .ok ({ st with negotiate_st :=
                        { st.negotiate_st with new_keys_recvd := true } },
                     [Effect.SetDecrypt keys algos.cipher_stc.block_len tag_len])
  | _ => .error (.Protocol "received unexpected SSH_MSG_NEWKEYS")

/-- Embedding of `send_new_keys` (lines 454-487): derive the client-to-server
keys (letters C/A/E), feed the NEWKEYS packet (message byte 21) and install
the packet encryptor. -/
def send_new_keys (st : CStateM) (h : HashFn) :
    Except Err (CStateM × List Effect) :=
  match st.negotiate_st.algos with
  | none => .error (.Panic "algos unwrap failed")
  | some algos =>
      match keyCtxOf st h with
      | .error e => .error e
      | .ok ctx =>
          let keys := send_new_keys_keys ctx algos
          let tag_len :=
            match algos.cipher_cts.variant with
            | .Standard => algos.mac_cts.tag_len
            | .Aead t => t
          .ok ({ st with send_seq := st.send_seq + 1 },
               [Effect.FeedPacket [21],
                Effect.SetEncrypt keys algos.cipher_cts.block_len tag_len])

/-- Embedding of `maybe_send_ext_info` (lines 517-524): on the first kex, send
EXT_INFO if the peer advertised `ext-info-s`. -/
def maybe_send_ext_info (st : CStateM) : Except Err (List Effect) :=
  match st.negotiate_st.their_kex_init with
  | none => .error (.Panic "their_kex_init unwrap failed")
  | some their =>
      if !st.last_kex.done && their.kex_algos.contains "ext-info-s" then
        .ok [Effect.SendExtInfo]
      else .ok []

/-- Oracle inputs for one `pump_negotiate` call: the clock, the rng cookie,
the results of the kex object's `send_packet` and `poll` methods (`none` for
`Poll::Pending`), the results of `Pubkey::decode` and of the host-key
signature verification, the event queue's `poll_reserve` outcome (`none` =
pending, `some true` = reserved, `some false` = channel closed), the accept
oneshot's poll outcome (`none` = pending, `some (.error ())` = sender dropped,
`some (.ok r)` = a reply `r`), and the kex hash function. -/
structure PumpOracle where
  now : Nat
  cookie : List Nat
  kex_send_packet : Except Err (Option (List Nat))
  kex_poll : Except Err (Option KexOutputM)
  pubkey_decode : Except Err Unit
  verify : Except Err Unit
  event_reserve : Option Bool
  accept_poll : Option (Except Unit (Except Err Unit))
  hash : HashFn

/-- The `State::Idle` arm of `pump_negotiate` (lines 107-119): when
authenticated, compare the byte counters and elapsed time since the last kex
against the configured thresholds and start a new kex when a threshold is
strictly exceeded. -/
def pump_idle (st : CStateM) (o : PumpOracle) :
    Except Err (CStateM × Pump × List Effect) :=
  if st.authenticated then
    let recvd_after_kex := st.recvd_bytes - st.last_kex.recvd_bytes
    let sent_after_kex := st.sent_bytes - st.last_kex.sent_bytes
    let duration_after_kex := o.now - st.last_kex.instant
    if max recvd_after_kex sent_after_kex > st.config.rekey_after_bytes ∨
        duration_after_kex > st.config.rekey_after_duration then
      let r := start_kex st none
      .ok (r.1, .Progress, r.2)
    else .ok (st, .Pending, [])
  else .ok (st, .Pending, [])

/-- The `State::KexInit` arm of `pump_negotiate` (lines 120-132): send our
KEXINIT once; when both KEXINITs are present, negotiate algorithms, create the
kex object and move to `Kex`. -/
def pump_kex_init (st : CStateM) (o : PumpOracle) :
    Except Err (CStateM × Pump × List Effect) :=
  let r :=
    if st.negotiate_st.our_kex_init.isNone then
      let s := send_kex_init st o.cookie
      ({ s.1 with negotiate_st :=
          { s.1.negotiate_st with our_kex_init := some s.2.1 } },
       s.2.2)
    else (st, ([] : List Effect))
  let st1 := r.1
  let effs1 := r.2
  match st1.negotiate_st.our_kex_init, st1.negotiate_st.their_kex_init with
  | some our, some their =>
      match negotiate_algos our their with
      | .error e => .error e
      | .ok algos =>
          .ok ({ st1 with negotiate_st :=
                  { st1.negotiate_st with
                    algos := some algos
                    kex := true
                    state := .Kex } },
               .Progress, effs1)
  | _, _ => .ok (st1, .Pending, effs1)

/-- The `State::Kex` arm of `pump_negotiate` (lines 133-167): forward kex
packets; once the kex object yields its output, set the session id if still
unset, decode and verify the server public key, store the verification
witness, queue the `ServerPubkey` event and move to `AcceptPubkey`. -/
def pump_kex (st : CStateM) (o : PumpOracle) :
    Except Err (CStateM × Pump × List Effect) :=
  if !st.negotiate_st.kex then .error (.Panic "kex unwrap failed")
  else
    match o.kex_send_packet with
    | .error e => .error e
    | .ok (some payload) =>
        .ok ({ st with send_seq := st.send_seq + 1 }, .Progress,
             [Effect.FeedPacket payload])
    | .ok none =>
        match o.kex_poll with
        | .error e => .error e
        | .ok none => .ok (st, .Pending, [])
        | .ok (some kex_output) =>
            let st1 :=
              if st.session_id.isNone then
                { st with session_id := some kex_output.exchange_hash }
              else st
            match o.pubkey_decode with
            | .error e => .error e
            | .ok _ =>
                match o.verify with
                | .error e => .error e
                | .ok _ =>
                    .ok ({ st1 with negotiate_st :=
                            { st1.negotiate_st with
                              signature_verified := true
                              kex_output := some kex_output
                              pubkey_event := true
                              accepted_rx := true
                              state := .AcceptPubkey } },
                         .Progress, [])

/-- The poll of the accept oneshot at the end of the `State::AcceptPubkey` arm
(lines 177-182): a dropped sender is reported as `PubkeyAccept`; a rejection
reply propagates its error; an acceptance moves to `NewKeys`. -/
def accept_poll_step (st : CStateM) (o : PumpOracle) (effs : List Effect) :
    Except Err (CStateM × Pump × List Effect) :=
  if !st.negotiate_st.accepted_rx then .error (.Panic "accepted_rx unwrap failed")
  else
    match o.accept_poll with
    | none => .ok (st, .Pending, effs)
    | some (.error _) => .error .PubkeyAccept
    | some (.ok (.error e)) => .error e
    | some (.ok (.ok _)) =>
        .ok ({ st with negotiate_st :=
                { st.negotiate_st with
                  pubkey_accepted := true
                  state := .NewKeys } },
             .Progress, effs)

/-- The `State::AcceptPubkey` arm of `pump_negotiate` (lines 168-183): emit
the queued `ServerPubkey` event once the event queue has capacity (the event
is taken, and dropped, even if the queue is closed), then poll the accept
oneshot. -/
def pump_accept_pubkey (st : CStateM) (o : PumpOracle) :
    Except Err (CStateM × Pump × List Effect) :=
  if st.negotiate_st.pubkey_event then
    match o.event_reserve with
    | none => .ok (st, .Pending, [])
    | some reserved =>
        let st1 := { st with negotiate_st :=
            { st.negotiate_st with pubkey_event := false } }
        accept_poll_step st1 o (if reserved then [Effect.EmitPubkeyEvent] else [])
  else accept_poll_step st o []

/-- The `State::NewKeys` arm of `pump_negotiate` (lines 184-199): assert the
verification witness and the acceptance are present, send NEWKEYS once (then
possibly EXT_INFO), then wait for the peer's NEWKEYS before moving to `Done`. -/
def pump_new_keys (st : CStateM) (o : PumpOracle) :
    Except Err (CStateM × Pump × List Effect) :=
  if !(st.negotiate_st.signature_verified && st.negotiate_st.pubkey_accepted) then
    .error (.Panic "assert failed in State NewKeys")
  else if !st.negotiate_st.new_keys_sent then
    match send_new_keys st o.hash with
    | .error e => .error e
    | .ok (st1, effs) =>
        let st2 := { st1 with negotiate_st :=
            { st1.negotiate_st with new_keys_sent := true } }
        match maybe_send_ext_info st2 with
        | .error e => .error e
        | .ok effs2 => .ok (st2, .Progress, effs ++ effs2)
  else if st.negotiate_st.new_keys_sent && st.negotiate_st.new_keys_recvd then
    .ok ({ st with negotiate_st := { st.negotiate_st with state := .Done } },
         .Progress, [])
  else .ok (st, .Pending, [])

/-- The `State::Done` arm of `pump_negotiate` (lines 200-212): resolve the
waiting rekey senders with `Ok`, reset the negotiation state and record the
`last_kex` counters. -/
def pump_done (st : CStateM) (o : PumpOracle) :
    Except Err (CStateM × Pump × List Effect) :=
  .ok ({ st with
         negotiate_st := defaultNegotiateState
         last_kex := { done := true, recvd_bytes := st.recvd_bytes,
                       sent_bytes := st.sent_bytes, instant := o.now } },
       .Progress,
       st.negotiate_st.done_txs.map Effect.ResolveDoneOk)

/-- Embedding of `pump_negotiate` (lines 105-215), dispatching on the
negotiation state. -/
def pump_negotiate (st : CStateM) (o : PumpOracle) :
    Except Err (CStateM × Pump × List Effect) :=
  match st.negotiate_st.state with
  | .Idle => pump_idle st o
  | .KexInit => pump_kex_init st o
  | .Kex => pump_kex st o
  | .AcceptPubkey => pump_accept_pubkey st o
  | .NewKeys => pump_new_keys st o
  | .Done => pump_done st o

/-- One externally triggered operation on the negotiation state: a driver pump
tick, a received KEXINIT, a received NEWKEYS, a received UNIMPLEMENTED
referencing sequence `seq`, or a rekey request (`start_kex`). -/
inductive StepInput where
  | pump (o : PumpOracle)
  | recvKexInit (p : KexInitPacketM)
  | recvNewKeys (h : HashFn)
  | recvUnimplemented (seq : Nat)
  | startKex (tx : Option Nat)

/-- The combined step function of the negotiation state machine: every
operation of `negotiate.rs` that mutates the client state. -/
def step (st : CStateM) (i : StepInput) : Except Err (CStateM × List Effect) :=
  match i with
  | .pump o => (pump_negotiate st o).map fun r => (r.1, r.2.2)
  | .recvKexInit p => (recv_kex_init st p).map fun st' => (st', [])
  | .recvNewKeys h => recv_new_keys st h
  | .recvUnimplemented seq => (recv_unimplemented st seq).map fun r => (r.1, r.2.2)
  | .startKex tx => .ok (start_kex st tx)

/-! ## Channel open request (`src/client/client.rs`, `Client::open_channel`) -/

/-- The `OpenChannel` request record submitted to the connection layer
(`super::conn::OpenChannel`), as built by `Client::open_channel`. The oneshot
`confirmed_tx` is not modelled. -/
structure OpenChannelM where
  channel_type : String
  recv_window_max : Nat
  recv_packet_len_max : Nat
  open_payload : List Nat
deriving DecidableEq

/-- Embedding of the request construction in `Client::open_channel`
(`src/client/client.rs` lines 163-174). -/
def open_channel (channel_type : String) (open_payload : List Nat) : OpenChannelM :=
  { channel_type := channel_type
    recv_window_max := 100000
    recv_packet_len_max := 1000000
    open_payload := open_payload }

/-! ## Theorems -/

/-- C9: every `Client::open_channel` call submits its channel-open request
with `recv_window_max = 100000` and `recv_packet_len_max = 1000000`,
independent of the `channel_type` and `open_payload` arguments, which are
passed through unchanged; the caller cannot influence the flow-control
parameters. -/
theorem open_channel_flow_control_constants (channel_type : String)
    (open_payload : List Nat) :
    (open_channel channel_type open_payload).recv_window_max = 100000 ∧
    (open_channel channel_type open_payload).recv_packet_len_max = 1000000 ∧
    (open_channel channel_type open_payload).channel_type = channel_type ∧
    (open_channel channel_type open_payload).open_payload = open_payload :=
  ⟨rfl, rfl, rfl, rfl⟩

/-- C10: the ssh-ed25519 `verify` returns the `SignatureVerified` witness
exactly when the signature blob decodes as the format string "ssh-ed25519"
followed by a 64-byte signature field and strict Ed25519 verification of that
signature over the message succeeds; a non-Ed25519 public key yields
`PubkeyFormat`, a different format string yields a `Decode` error, and a
failed verification yields `Signature` — no path yields the witness without a
successful verification. -/
theorem ed25519_verify_characterization
    (vs : List Nat → List Nat → List Nat → Bool)
    (pubkey : PubkeyM) (message signature : List Nat) :
    (ed25519_verify vs pubkey message signature = .ok () ↔
      ∃ key rest sig64 rest2,
        pubkey = .Ed25519 key ∧
        getString signature = .ok (sshEd25519Bytes, rest) ∧
        getRaw 64 rest = .ok (sig64, rest2) ∧
        vs key message sig64 = true) ∧
    (pubkey = .Other →
      ed25519_verify vs pubkey message signature = .error .PubkeyFormat) ∧
    (∀ key fmt rest, pubkey = .Ed25519 key →
      getString signature = .ok (fmt, rest) → fmt ≠ sshEd25519Bytes →
      ed25519_verify vs pubkey message signature =
        .error (.Decode "expected signature format ssh-ed25519")) ∧
    (∀ key rest sig64 rest2, pubkey = .Ed25519 key →
      getString signature = .ok (sshEd25519Bytes, rest) →
      getRaw 64 rest = .ok (sig64, rest2) →
      vs key message sig64 = false →
      ed25519_verify vs pubkey message signature = .error .Signature) := by
  refine ⟨⟨?_, ?_⟩, ?_, ?_, ?_⟩
  · intro h
    cases pubkey with
    | Other => simp [ed25519_verify] at h
    | Ed25519 key =>
      cases hg : getString signature with
      | error e => simp [ed25519_verify, hg] at h
      | ok p =>
        obtain ⟨fmt, rest⟩ := p
        by_cases hf : fmt = sshEd25519Bytes
        · subst hf
          cases hr : getRaw 64 rest with
          | error e => simp [ed25519_verify, hg, hr] at h
          | ok q =>
            obtain ⟨sig64, rest2⟩ := q
            cases hv : vs key message sig64 with
            | true => exact ⟨key, rest, sig64, rest2, rfl, rfl, hr, hv⟩
            | false => simp [ed25519_verify, hg, hr, hv] at h
        · simp [ed25519_verify, hg, hf] at h
  · rintro ⟨key, rest, sig64, rest2, rfl, hg, hr, hv⟩
    simp [ed25519_verify, hg, hr, hv]
  · rintro rfl
    simp [ed25519_verify]
  · rintro key fmt rest rfl hg hf
    simp [ed25519_verify, hg, hf]
  · rintro key rest sig64 rest2 rfl hg hr hv
    simp [ed25519_verify, hg, hr, hv]

/-- A verification oracle accepting everything. -/
def vsAlways : List Nat → List Nat → List Nat → Bool := fun _ _ _ => true

/-- A verification oracle rejecting everything. -/
def vsNever : List Nat → List Nat → List Nat → Bool := fun _ _ _ => false

/-- A well-formed ssh-ed25519 signature blob: format string then 64 bytes. -/
def goodSigBlob : List Nat := encodeString sshEd25519Bytes ++ List.replicate 64 0

/-- A signature blob with the wrong format string. -/
def badFmtSigBlob : List Nat := encodeString (strBytes "ssh-rsa") ++ List.replicate 64 0

/-- Witness for `ed25519_verify_characterization`: all four outcomes realized
at concrete inputs. -/
theorem ed25519_verify_characterization_witness :
    ed25519_verify vsAlways (.Ed25519 []) [] goodSigBlob = .ok () ∧
    ed25519_verify vsAlways .Other [] goodSigBlob = .error .PubkeyFormat ∧
    ed25519_verify vsAlways (.Ed25519 []) [] badFmtSigBlob =
      .error (.Decode "expected signature format ssh-ed25519") ∧
    ed25519_verify vsNever (.Ed25519 []) [] goodSigBlob = .error .Signature := by
  refine ⟨?_, ?_, ?_, ?_⟩
  · exact (ed25519_verify_characterization vsAlways (.Ed25519 []) [] goodSigBlob).1.mpr
      ⟨[], List.replicate 64 0, List.replicate 64 0, [], rfl, by rfl, by rfl, rfl⟩
  · exact (ed25519_verify_characterization vsAlways .Other [] goodSigBlob).2.1 rfl
  · exact (ed25519_verify_characterization vsAlways (.Ed25519 []) [] badFmtSigBlob).2.2.1
      [] (strBytes "ssh-rsa") (List.replicate 64 0) rfl (by rfl)
      (by intro hcontra; simp [strBytes, sshEd25519Bytes] at hcontra)
  · exact (ed25519_verify_characterization vsNever (.Ed25519 []) [] goodSigBlob).2.2.2
      [] (List.replicate 64 0) (List.replicate 64 0) [] rfl (by rfl) (by rfl) rfl

/-- Lemma: `algoFirstMatch` returns `some a` exactly when `a` is the first algorithm
of ours whose name occurs in their list. -/
theorem algoFirstMatch_eq_some {A : Type} (nameOf : A → String)
    (theirAlgos : List String) (ourAlgos : List A) (a : A) :
    algoFirstMatch nameOf theirAlgos ourAlgos = some a ↔
      ∃ pre post, ourAlgos = pre ++ a :: post ∧ nameOf a ∈ theirAlgos ∧
        ∀ b ∈ pre, nameOf b ∉ theirAlgos := by
  induction ourAlgos with
  | nil => simp [algoFirstMatch]
  | cons x rest ih =>
    simp only [algoFirstMatch]
    by_cases hx : nameOf x ∈ theirAlgos
    · simp only [hx, if_pos, Option.some.injEq]
      constructor
      · rintro rfl
        exact ⟨[], rest, rfl, hx, by simp⟩
      · rintro ⟨pre, post, heq, ha, hpre⟩
        cases pre with
        | nil =>
          simp only [List.nil_append, List.cons.injEq] at heq
          exact heq.1
        | cons p ps =>
          simp only [List.cons_append, List.cons.injEq] at heq
          exact absurd (heq.1 ▸ hx) (hpre p (by simp))
    · rw [if_neg hx, ih]
      constructor
      · rintro ⟨pre, post, heq, ha, hpre⟩
        refine ⟨x :: pre, post, by simp [heq], ha, ?_⟩
        intro b hb
        rcases List.mem_cons.mp hb with rfl | hb
        · exact hx
        · exact hpre b hb
      · rintro ⟨pre, post, heq, ha, hpre⟩
        cases pre with
        | nil =>
          simp only [List.nil_append, List.cons.injEq] at heq
          exact absurd (heq.1 ▸ ha) hx
        | cons p ps =>
          simp only [List.cons_append, List.cons.injEq] at heq
          exact ⟨ps, post, heq.2, ha, fun b hb => hpre b (by simp [hb])⟩

/-- Lemma: `algoFirstMatch` returns `none` exactly when no algorithm of ours appears
in their list. -/
theorem algoFirstMatch_eq_none {A : Type} (nameOf : A → String)
    (theirAlgos : List String) (ourAlgos : List A) :
    algoFirstMatch nameOf theirAlgos ourAlgos = none ↔
      ∀ b ∈ ourAlgos, nameOf b ∉ theirAlgos := by
  induction ourAlgos with
  | nil => simp [algoFirstMatch]
  | cons x rest ih =>
    simp only [algoFirstMatch]
    by_cases hx : nameOf x ∈ theirAlgos <;> simp [hx, ih]

/-- C4: algorithm negotiation picks the first name of the client's list that
also occurs in the server's list; with no overlap it fails with an
`AlgoNegotiate` error carrying the algorithm-kind name and both complete
lists; and `negotiate_algos` applies this rule independently to the kex,
server-public-key, and per-direction cipher and MAC slots. -/
theorem negotiate_algos_first_match :
    (∀ (A : Type) (nameOf : A → String) (ourAlgos : List A)
        (theirAlgos : List String) (name : String) (a : A),
      negotiate_algo nameOf ourAlgos theirAlgos name = .ok a ↔
        ∃ pre post, ourAlgos = pre ++ a :: post ∧ nameOf a ∈ theirAlgos ∧
          ∀ b ∈ pre, nameOf b ∉ theirAlgos) ∧
    (∀ (A : Type) (nameOf : A → String) (ourAlgos : List A)
        (theirAlgos : List String) (name : String),
      negotiate_algo nameOf ourAlgos theirAlgos name =
          .error (.AlgoNegotiateErr name (ourAlgos.map nameOf) theirAlgos) ↔
        ∀ b ∈ ourAlgos, nameOf b ∉ theirAlgos) ∧
    (∀ (our : OurKexInitM) (their : TheirKexInitM) (algos : AlgosM),
      negotiate_algos our their = .ok algos →
        negotiate_algo id our.kex_algos their.kex_algos "key exchange" =
          .ok algos.kex ∧
        negotiate_algo id our.server_pubkey_algos their.server_pubkey_algos
          "server public key" = .ok algos.server_pubkey ∧
        negotiate_algo CipherAlgoM.name our.cipher_algos_cts
          their.cipher_algos_cts "cipher client-to-server" = .ok algos.cipher_cts ∧
        negotiate_algo CipherAlgoM.name our.cipher_algos_stc
          their.cipher_algos_stc "cipher server-to-client" = .ok algos.cipher_stc ∧
        negotiate_mac_algo algos.cipher_cts our.mac_algos_cts their.mac_algos_cts
          "mac client-to-server" = .ok algos.mac_cts ∧
        negotiate_mac_algo algos.cipher_stc our.mac_algos_stc their.mac_algos_stc
          "mac server-to-client" = .ok algos.mac_stc) := by
  refine ⟨?_, ?_, ?_⟩
  · intro A nameOf ourAlgos theirAlgos name a
    rw [← algoFirstMatch_eq_some nameOf theirAlgos ourAlgos a]
    unfold negotiate_algo
    cases h : algoFirstMatch nameOf theirAlgos ourAlgos <;> simp
  · intro A nameOf ourAlgos theirAlgos name
    rw [← algoFirstMatch_eq_none nameOf theirAlgos ourAlgos]
    unfold negotiate_algo
    cases h : algoFirstMatch nameOf theirAlgos ourAlgos <;> simp
  · intro our their algos h
    unfold negotiate_algos at h
    repeat' split at h
    all_goals try (injection h with h; subst h)
    all_goals simp_all

/-- A sample standard cipher descriptor used by concrete witnesses. -/
def aes128ctr : CipherAlgoM :=
  { name := "aes128-ctr", key_len := 16, iv_len := 16, block_len := 16,
    variant := .Standard }

/-- A sample AEAD cipher descriptor used by concrete witnesses. -/
def sampleAead : CipherAlgoM :=
  { name := "chacha20-poly1305", key_len := 64, iv_len := 0, block_len := 8,
    variant := .Aead 16 }

/-- A sample MAC descriptor used by concrete witnesses. -/
def hmacSha2 : MacAlgoM :=
  { name := "hmac-sha2-256", key_len := 32, tag_len := 32,
    variant := .EncryptAndMac }

/-- Sample retained client KEXINIT used by concrete witnesses. -/
def sampleOur : OurKexInitM :=
  { payload := [], kex_algos := ["curve25519-sha256"],
    server_pubkey_algos := ["ssh-ed25519"],
    cipher_algos_cts := [aes128ctr], cipher_algos_stc := [aes128ctr],
    mac_algos_cts := [hmacSha2], mac_algos_stc := [hmacSha2], packet_seq := 3 }

/-- Sample peer KEXINIT used by concrete witnesses. -/
def sampleTheir : TheirKexInitM :=
  { payload := [], kex_algos := ["curve25519-sha256"],
    server_pubkey_algos := ["ssh-ed25519"],
    cipher_algos_cts := ["aes128-ctr"], cipher_algos_stc := ["aes128-ctr"],
    mac_algos_cts := ["hmac-sha2-256"], mac_algos_stc := ["hmac-sha2-256"] }

/-- Witness for `negotiate_algos_first_match`: the per-slot delegation at a
concrete negotiation. -/
theorem negotiate_algos_first_match_witness :
    negotiate_algo id sampleOur.kex_algos sampleTheir.kex_algos "key exchange" =
      .ok "curve25519-sha256" ∧
    negotiate_algo id sampleOur.server_pubkey_algos sampleTheir.server_pubkey_algos
      "server public key" = .ok "ssh-ed25519" ∧
    negotiate_algo CipherAlgoM.name sampleOur.cipher_algos_cts
      sampleTheir.cipher_algos_cts "cipher client-to-server" = .ok aes128ctr ∧
    negotiate_algo CipherAlgoM.name sampleOur.cipher_algos_stc
      sampleTheir.cipher_algos_stc "cipher server-to-client" = .ok aes128ctr ∧
    negotiate_mac_algo aes128ctr sampleOur.mac_algos_cts sampleTheir.mac_algos_cts
      "mac client-to-server" = .ok hmacSha2 ∧
    negotiate_mac_algo aes128ctr sampleOur.mac_algos_stc sampleTheir.mac_algos_stc
      "mac server-to-client" = .ok hmacSha2 :=
  negotiate_algos_first_match.2.2 sampleOur sampleTheir
    { kex := "curve25519-sha256", server_pubkey := "ssh-ed25519",
      cipher_cts := aes128ctr, cipher_stc := aes128ctr,
      mac_cts := hmacSha2, mac_stc := hmacSha2 }
    (by rfl)

/-- C5: for a direction whose selected cipher is AEAD, the MAC slot is the
sentinel `INVALID` MAC algorithm and the peer's MAC list is never consulted
(so an empty MAC overlap cannot fail negotiation for that direction); for a
non-AEAD cipher the MAC is negotiated by the ordinary first-match rule. -/
theorem negotiate_mac_algo_aead_sentinel :
    (∀ (cipher_algo : CipherAlgoM) (ourAlgos : List MacAlgoM)
        (theirAlgos : List String) (name : String),
      cipher_algo.variant.is_aead = true →
        negotiate_mac_algo cipher_algo ourAlgos theirAlgos name = .ok macINVALID) ∧
    (∀ (cipher_algo : CipherAlgoM) (ourAlgos : List MacAlgoM)
        (theirAlgos : List String) (name : String),
      cipher_algo.variant.is_aead = false →
        negotiate_mac_algo cipher_algo ourAlgos theirAlgos name =
          negotiate_algo MacAlgoM.name ourAlgos theirAlgos name) ∧
    (∀ (our : OurKexInitM) (their : TheirKexInitM) (algos : AlgosM),
      negotiate_algos our their = .ok algos →
        (algos.cipher_cts.variant.is_aead = true → algos.mac_cts = macINVALID) ∧
        (algos.cipher_stc.variant.is_aead = true → algos.mac_stc = macINVALID)) := by
  refine ⟨?_, ?_, ?_⟩
  · intro cipher_algo ourAlgos theirAlgos name h
    simp [negotiate_mac_algo, h]
  · intro cipher_algo ourAlgos theirAlgos name h
    simp [negotiate_mac_algo, h]
  · intro our their algos h
    unfold negotiate_algos at h
    repeat' split at h
    all_goals try (injection h with h; subst h)
    all_goals try simp_all
    constructor <;> intro haead <;> simp_all [negotiate_mac_algo]

/-- Witness for `negotiate_mac_algo_aead_sentinel`: an AEAD cipher yields the
sentinel against an empty peer MAC list, and a standard cipher defers to the
first-match rule. -/
theorem negotiate_mac_algo_aead_sentinel_witness :
    negotiate_mac_algo sampleAead [hmacSha2] [] "mac client-to-server" =
      .ok macINVALID ∧
    negotiate_mac_algo aes128ctr [hmacSha2] ["hmac-sha2-256"]
        "mac client-to-server" =
      negotiate_algo MacAlgoM.name [hmacSha2] ["hmac-sha2-256"]
        "mac client-to-server" :=
  ⟨negotiate_mac_algo_aead_sentinel.1 sampleAead [hmacSha2] [] "mac client-to-server" rfl,
   negotiate_mac_algo_aead_sentinel.2.1 aes128ctr [hmacSha2] ["hmac-sha2-256"]
     "mac client-to-server" rfl⟩

/-- Unfolding of `key_blocks` at a successor index above 1: the next block
hashes the prefix followed by the concatenation so far. -/
theorem key_blocks_succ (h : HashFn) (pre : List Nat) (x : Nat) (sid : List Nat)
    (n : Nat) (hn : 1 ≤ n) :
    key_blocks h pre x sid (n + 1) =
      key_blocks h pre x sid n ++ h.f (pre ++ key_blocks h pre x sid n) := by
  obtain ⟨m, rfl⟩ : ∃ m, n = m + 1 := ⟨n - 1, by omega⟩
  rfl

/-- The `derive_key` extension loop, started on the concatenation of the first
`n ≥ 1` key blocks, stops on the concatenation of the first `n2` key blocks,
where `n2` is the first index from `n` whose concatenation reaches the
required length. -/
theorem derive_loop_blocks (h : HashFn) (pre : List Nat) (x : Nat)
    (sid : List Nat) (L : Nat) :
    ∀ (fuel n : Nat), 1 ≤ n → L - (key_blocks h pre x sid n).length ≤ fuel →
      ∃ n2, n ≤ n2 ∧ L ≤ (key_blocks h pre x sid n2).length ∧
        (∀ m, n ≤ m → m < n2 → (key_blocks h pre x sid m).length < L) ∧
        derive_loop h pre L (key_blocks h pre x sid n) =
          key_blocks h pre x sid n2 := by
  intro fuel
  induction fuel with
  | zero =>
    intro n hn hle
    have hL : L ≤ (key_blocks h pre x sid n).length := by omega
    refine ⟨n, le_refl n, hL, fun m h1 h2 => absurd (lt_of_le_of_lt h1 h2) (lt_irrefl n), ?_⟩
    rw [derive_loop, dif_neg (by omega)]
  | succ fuel ih =>
    intro n hn hle
    by_cases hlt : (key_blocks h pre x sid n).length < L
    · have hstep : (key_blocks h pre x sid (n + 1)).length =
          (key_blocks h pre x sid n).length +
            (h.f (pre ++ key_blocks h pre x sid n)).length := by
        rw [key_blocks_succ h pre x sid n hn, List.length_append]
      have hpos := h.len_pos (pre ++ key_blocks h pre x sid n)
      obtain ⟨n2, hn2, hL2, hint, heq⟩ := ih (n + 1) (by omega) (by omega)
      refine ⟨n2, by omega, hL2, ?_, ?_⟩
      · intro m hm1 hm2
        rcases eq_or_lt_of_le hm1 with rfl | hm
        · exact hlt
        · exact hint m (by omega) hm2
      · rw [derive_loop, dif_pos hlt, ← key_blocks_succ h pre x sid n hn, heq]
    · refine ⟨n, le_refl n, by omega,
        fun m h1 h2 => absurd (lt_of_le_of_lt h1 h2) (lt_irrefl n), ?_⟩
      rw [derive_loop, dif_neg hlt]

/-- C1: `derive_key` produces exactly the RFC 4253 section 7.2 key material:
the truncation to the required length of the concatenation
`K1 ∥ … ∥ Kn` with `K1 = HASH(mpint(K) ∥ H ∥ X ∥ session_id)` and
`K(j+1) = HASH(mpint(K) ∥ H ∥ K1 ∥ … ∥ Kj)`, extended exactly while still
shorter than the required length; and the key-type letters used at the
NEWKEYS call sites are A = IV client-to-server, B = IV server-to-client,
C = encryption key client-to-server, D = encryption key server-to-client,
E = MAC key client-to-server, F = MAC key server-to-client. -/
theorem derive_key_rfc4253 :
    (∀ (h : HashFn) (k : Nat) (hh : List Nat) (x : Nat) (sid : List Nat) (L : Nat),
      ∃ n, 1 ≤ n ∧ L ≤ (key_blocks h (mpintEnc k ++ hh) x sid n).length ∧
        (∀ m, 1 ≤ m → m < n →
          (key_blocks h (mpintEnc k ++ hh) x sid m).length < L) ∧
        derive_key h k hh x sid L =
          (key_blocks h (mpintEnc k ++ hh) x sid n).take L) ∧
    (∀ (ctx : KeyCtx) (algos : AlgosM),
      (send_new_keys_keys ctx algos).cipher_iv =
        derive_key ctx.h ctx.k ctx.hh 65 ctx.sid algos.cipher_cts.iv_len ∧
      (recv_new_keys_keys ctx algos).cipher_iv =
        derive_key ctx.h ctx.k ctx.hh 66 ctx.sid algos.cipher_stc.iv_len ∧
      (send_new_keys_keys ctx algos).cipher_key =
        derive_key ctx.h ctx.k ctx.hh 67 ctx.sid algos.cipher_cts.key_len ∧
      (recv_new_keys_keys ctx algos).cipher_key =
        derive_key ctx.h ctx.k ctx.hh 68 ctx.sid algos.cipher_stc.key_len ∧
      (algos.cipher_cts.variant = .Standard →
        (send_new_keys_keys ctx algos).mac_key =
          some (derive_key ctx.h ctx.k ctx.hh 69 ctx.sid algos.mac_cts.key_len)) ∧
      (algos.cipher_stc.variant = .Standard →
        (recv_new_keys_keys ctx algos).mac_key =
          some (derive_key ctx.h ctx.k ctx.hh 70 ctx.sid algos.mac_stc.key_len))) := by
  constructor
  · intro h k hh x sid L
    obtain ⟨n2, hn2, hL2, hint, heq⟩ :=
      derive_loop_blocks h (mpintEnc k ++ hh) x sid L L 1 (le_refl 1)
        (Nat.sub_le L _)
    refine ⟨n2, hn2, hL2, hint, ?_⟩
    show (derive_loop h (mpintEnc k ++ hh) L
      (key_blocks h (mpintEnc k ++ hh) x sid 1)).take L = _
    rw [heq]
  · intro ctx algos
    refine ⟨rfl, rfl, rfl, rfl, fun hstd => ?_, fun hstd => ?_⟩
    · simp [send_new_keys_keys, hstd]
    · simp [recv_new_keys_keys, hstd]

/-- A constant one-byte hash function used by concrete witnesses. -/
def constHash : HashFn :=
  { f := fun _ => [0], len_pos := fun _ => Nat.one_pos }

/-- A sample key-derivation context used by concrete witnesses. -/
def sampleCtx : KeyCtx :=
  { h := constHash, k := 5, hh := [1, 2], sid := [3] }

/-- A sample negotiated algorithm record used by concrete witnesses. -/
def sampleAlgos : AlgosM :=
  { kex := "curve25519-sha256", server_pubkey := "ssh-ed25519",
    cipher_cts := aes128ctr, cipher_stc := aes128ctr,
    mac_cts := hmacSha2, mac_stc := hmacSha2 }

/-- Witness for `derive_key_rfc4253`: the MAC-key letter equations at a
concrete standard-cipher negotiation. -/
theorem derive_key_rfc4253_witness :
    (send_new_keys_keys sampleCtx sampleAlgos).mac_key =
      some (derive_key constHash 5 [1, 2] 69 [3] hmacSha2.key_len) ∧
    (recv_new_keys_keys sampleCtx sampleAlgos).mac_key =
      some (derive_key constHash 5 [1, 2] 70 [3] hmacSha2.key_len) :=
  ⟨(derive_key_rfc4253.2 sampleCtx sampleAlgos).2.2.2.2.1 rfl,
   (derive_key_rfc4253.2 sampleCtx sampleAlgos).2.2.2.2.2 rfl⟩

/-- C2: from `Idle`, with the client authenticated, a new key exchange is
started (transition to `KexInit`) exactly when the maximum of the bytes
received and sent since the last KEX strictly exceeds
`config.rekey_after_bytes`, or the elapsed time strictly exceeds
`config.rekey_after_duration`; without authentication no byte- or time-based
rekey is ever started. -/
theorem pump_idle_rekey_trigger (st : CStateM) (o : PumpOracle)
    (hidle : st.negotiate_st.state = .Idle) :
    (st.authenticated = true →
      (max (st.recvd_bytes - st.last_kex.recvd_bytes)
           (st.sent_bytes - st.last_kex.sent_bytes) > st.config.rekey_after_bytes ∨
        o.now - st.last_kex.instant > st.config.rekey_after_duration) →
      pump_negotiate st o =
        .ok ({ st with negotiate_st := { st.negotiate_st with state := .KexInit } },
             .Progress, [Effect.Wakeup])) ∧
    (st.authenticated = true →
      ¬(max (st.recvd_bytes - st.last_kex.recvd_bytes)
            (st.sent_bytes - st.last_kex.sent_bytes) > st.config.rekey_after_bytes ∨
        o.now - st.last_kex.instant > st.config.rekey_after_duration) →
      pump_negotiate st o = .ok (st, .Pending, [])) ∧
    (st.authenticated = false →
      pump_negotiate st o = .ok (st, .Pending, [])) := by
  refine ⟨?_, ?_, ?_⟩
  · intro hauth htrig
    simp only [pump_negotiate, hidle]
    unfold pump_idle
    rw [if_pos hauth, if_pos htrig]
    simp [start_kex, hidle]
  · intro hauth htrig
    simp only [pump_negotiate, hidle]
    unfold pump_idle
    rw [if_pos hauth, if_neg htrig]
  · intro hauth
    simp only [pump_negotiate, hidle]
    unfold pump_idle
    rw [if_neg (by simp [hauth])]

/-- A sample configuration used by concrete witnesses. -/
def sampleConfig : ConfigM :=
  { kex_algos := ["curve25519-sha256"], server_pubkey_algos := ["ssh-ed25519"],
    cipher_algos := [aes128ctr], mac_algos := [hmacSha2],
    rekey_after_bytes := 1000, rekey_after_duration := 3600 }

/-- A sample oracle with every external poll pending or successful. -/
def sampleOracle : PumpOracle :=
  { now := 0, cookie := List.replicate 16 0,
    kex_send_packet := .ok none, kex_poll := .ok none,
    pubkey_decode := .ok (), verify := .ok (),
    event_reserve := some true, accept_poll := none, hash := constHash }

/-- A sample authenticated idle state whose received-byte counter exceeds the
rekey threshold. -/
def idleSt : CStateM :=
  { config := sampleConfig, session_id := some [9],
    negotiate_st := defaultNegotiateState,
    last_kex := { done := true, recvd_bytes := 0, sent_bytes := 0, instant := 0 },
    authenticated := true, recvd_bytes := 1001, sent_bytes := 0, send_seq := 5 }

/-- Witness for `pump_idle_rekey_trigger`: at a concrete over-threshold state a
rekey is started, and the same state without authentication stays idle. -/
theorem pump_idle_rekey_trigger_witness :
    pump_negotiate idleSt sampleOracle =
      .ok ({ idleSt with
             negotiate_st := { idleSt.negotiate_st with state := .KexInit } },
           .Progress, [Effect.Wakeup]) ∧
    pump_negotiate { idleSt with authenticated := false } sampleOracle =
      .ok ({ idleSt with authenticated := false }, .Pending, []) :=
  ⟨(pump_idle_rekey_trigger idleSt sampleOracle rfl).1 rfl (Or.inl (by decide)),
   (pump_idle_rekey_trigger { idleSt with authenticated := false } sampleOracle
      rfl).2.2 rfl⟩

/-- C8: a received KEXINIT with `first_kex_packet_follows` set is rejected
with a protocol error (the client never uses kex guessing), and our own
KEXINIT payload always ends with `first_kex_packet_follows = false` (one zero
byte) and `reserved = 0` (four zero bytes). -/
theorem kexinit_no_guessing :
    (∀ (st : CStateM) (p : KexInitPacketM), p.first_kex_packet_follows = true →
      recv_kex_init st p =
        .error (.Protocol "received SSH_MSG_KEXINIT with first_kex_packet_follows set")) ∧
    (∀ (cfg : ConfigM) (cookie : List Nat),
      ∃ pre, kexInitPayload cfg cookie = pre ++ encodeBool false ++ encodeU32 0 ∧
        encodeBool false = [0] ∧ encodeU32 0 = [0, 0, 0, 0]) := by
  constructor
  · intro st p hflag
    simp [recv_kex_init, hflag]
  · intro cfg cookie
    refine ⟨[20] ++ cookie
      ++ encodeNameList (cfg.kex_algos ++ ["ext-info-c"])
      ++ encodeNameList cfg.server_pubkey_algos
      ++ encodeNameList (cfg.cipher_algos.map CipherAlgoM.name)
      ++ encodeNameList (cfg.cipher_algos.map CipherAlgoM.name)
      ++ encodeNameList (cfg.mac_algos.map MacAlgoM.name)
      ++ encodeNameList (cfg.mac_algos.map MacAlgoM.name)
      ++ encodeNameList ["none"]
      ++ encodeNameList ["none"]
      ++ encodeNameList []
      ++ encodeNameList [], ?_, rfl, rfl⟩
    simp [kexInitPayload, List.append_assoc]

/-- A received KEXINIT packet with the guessing flag set, used as witness. -/
def guessingPacket : KexInitPacketM :=
  { payload := [], kex_algos := ["curve25519-sha256"],
    server_pubkey_algos := ["ssh-ed25519"], cipher_algos_cts := ["aes128-ctr"],
    cipher_algos_stc := ["aes128-ctr"], mac_algos_cts := ["hmac-sha2-256"],
    mac_algos_stc := ["hmac-sha2-256"], first_kex_packet_follows := true,
    reserved := 0 }

/-- Witness for `kexinit_no_guessing`: the concrete guessing packet is
rejected. -/
theorem kexinit_no_guessing_witness :
    recv_kex_init idleSt guessingPacket =
      .error (.Protocol "received SSH_MSG_KEXINIT with first_kex_packet_follows set") :=
  kexinit_no_guessing.1 idleSt guessingPacket rfl

/-- C6 (amended): when an UNIMPLEMENTED references our KEXINIT's sequence
number and the peer has not sent its own KEXINIT in this negotiation, then if
a previous KEX has completed every waiting rekey sender is resolved with
`RekeyRejected` and the negotiation state is reset to the fresh default
(`Idle`); on the first KEX the connection fails with a protocol error. -/
theorem recv_unimplemented_rekey_rejected (st : CStateM) (seq : Nat)
    (oki : OurKexInitM)
    (hoki : st.negotiate_st.our_kex_init = some oki) (hseq : oki.packet_seq = seq)
    (htheir : st.negotiate_st.their_kex_init = none) :
    (st.last_kex.done = true →
      recv_unimplemented st seq =
        .ok ({ st with negotiate_st := defaultNegotiateState }, true,
             st.negotiate_st.done_txs.map fun tx =>
               Effect.ResolveDoneErr tx Err.RekeyRejected)) ∧
    (st.last_kex.done = false →
      recv_unimplemented st seq =
        .error (.Protocol "peer rejected our first SSH_MSG_KEX_INIT")) := by
  constructor
  · intro hdone
    simp [recv_unimplemented, hoki, hseq, htheir, hdone]
  · intro hdone
    simp [recv_unimplemented, hoki, hseq, htheir, hdone]

/-- A rekey negotiation state awaiting sender 11, with our KEXINIT sent (the
sample one, sequence 3) and no peer KEXINIT received. -/
def rekeySt : CStateM :=
  { config := sampleConfig, session_id := some [9],
    negotiate_st := { defaultNegotiateState with
      state := .KexInit, our_kex_init := some sampleOur, done_txs := [11] },
    last_kex := { done := true, recvd_bytes := 0, sent_bytes := 0, instant := 0 },
    authenticated := true, recvd_bytes := 1001, sent_bytes := 0, send_seq := 5 }

/-- Witness for `recv_unimplemented_rekey_rejected`: at the concrete rekey
state, the UNIMPLEMENTED referencing sequence 3 resolves waiting sender 11
with `RekeyRejected` and resets the negotiation state. -/
theorem recv_unimplemented_rekey_rejected_witness :
    recv_unimplemented rekeySt 3 =
      .ok ({ rekeySt with negotiate_st := defaultNegotiateState }, true,
           [Effect.ResolveDoneErr 11 Err.RekeyRejected]) :=
  (recv_unimplemented_rekey_rejected rekeySt 3 sampleOur rfl rfl rfl).1 rfl

/-- The rekey state of `rekeySt` after the peer's KEXINIT also arrived. -/
def rekeyStTheir : CStateM :=
  { rekeySt with negotiate_st :=
      { rekeySt.negotiate_st with their_kex_init := some sampleTheir } }

/-- Counterexample to C6 as stated: in a non-first KEX (`last_kex.done =
true`) whose peer KEXINIT has already arrived, an UNIMPLEMENTED referencing
our KEXINIT sequence number does not resolve the rekey waiters and return to
Idle — the code fails the connection with a protocol error instead. -/
theorem recv_unimplemented_their_kexinit_cex :
    rekeyStTheir.last_kex.done = true ∧
    rekeyStTheir.negotiate_st.our_kex_init = some sampleOur ∧
    sampleOur.packet_seq = 3 ∧
    recv_unimplemented rekeyStTheir 3 =
      .error (.Protocol
        "peer rejected our SSH_MSG_KEX_INIT, but they sent their SSH_MSG_KEX_INIT") :=
  ⟨rfl, rfl, rfl, rfl⟩

/-! ### Session-id immutability (C3) -/

/-- Lemma: `start_kex` never touches the session id. -/
theorem start_kex_session_id (st : CStateM) (tx : Option Nat) :
    (start_kex st tx).1.session_id = st.session_id := by
  unfold start_kex
  repeat' split
  all_goals rfl

/-- Lemma: `send_kex_init` never touches the session id. -/
theorem send_kex_init_session_id (st : CStateM) (cookie : List Nat) :
    (send_kex_init st cookie).1.session_id = st.session_id := rfl

/-- Lemma: `send_new_keys` never touches the session id. -/
theorem send_new_keys_session_id (st : CStateM) (h : HashFn) (st' : CStateM)
    (effs : List Effect) (hok : send_new_keys st h = .ok (st', effs)) :
    st'.session_id = st.session_id := by
  unfold send_new_keys at hok
  dsimp only at hok
  repeat' split at hok
  all_goals try exact Except.noConfusion hok
  all_goals injection hok with hok
  all_goals injection hok with h1 h2
  all_goals subst h1
  all_goals rfl

/-- The `Idle` pump arm never touches the session id. -/
theorem pump_idle_session_id (st : CStateM) (o : PumpOracle) (st' : CStateM)
    (p : Pump) (effs : List Effect) (hok : pump_idle st o = .ok (st', p, effs)) :
    st'.session_id = st.session_id := by
  unfold pump_idle at hok
  dsimp only at hok
  repeat' split at hok
  all_goals injection hok with hok
  all_goals injection hok with h1 h2
  all_goals subst h1
  all_goals first
    | exact start_kex_session_id st none
    | rfl

/-- The `KexInit` pump arm never touches the session id. -/
theorem pump_kex_init_session_id (st : CStateM) (o : PumpOracle) (st' : CStateM)
    (p : Pump) (effs : List Effect)
    (hok : pump_kex_init st o = .ok (st', p, effs)) :
    st'.session_id = st.session_id := by
  unfold pump_kex_init send_kex_init at hok
  dsimp only at hok
  repeat' split at hok
  all_goals try exact Except.noConfusion hok
  all_goals injection hok with hok
  all_goals injection hok with h1 h2
  all_goals subst h1
  all_goals rfl

/-- The `Kex` pump arm only assigns the session id when it is still unset:
a set session id is preserved. -/
theorem pump_kex_session_id (st : CStateM) (o : PumpOracle) (st' : CStateM)
    (p : Pump) (effs : List Effect) (sid : List Nat)
    (hok : pump_kex st o = .ok (st', p, effs))
    (hsid : st.session_id = some sid) :
    st'.session_id = some sid := by
  unfold pump_kex at hok
  dsimp only at hok
  repeat' split at hok
  all_goals try exact Except.noConfusion hok
  all_goals injection hok with hok
  all_goals injection hok with h1 h2
  all_goals subst h1
  all_goals simp_all

/-- The accept-oneshot poll never touches the session id. -/
theorem accept_poll_step_session_id (st : CStateM) (o : PumpOracle)
    (effs0 : List Effect) (st' : CStateM) (p : Pump) (effs : List Effect)
    (hok : accept_poll_step st o effs0 = .ok (st', p, effs)) :
    st'.session_id = st.session_id := by
  unfold accept_poll_step at hok
  dsimp only at hok
  repeat' split at hok
  all_goals try exact Except.noConfusion hok
  all_goals injection hok with hok
  all_goals injection hok with h1 h2
  all_goals subst h1
  all_goals rfl

/-- The `AcceptPubkey` pump arm never touches the session id. -/
theorem pump_accept_pubkey_session_id (st : CStateM) (o : PumpOracle)
    (st' : CStateM) (p : Pump) (effs : List Effect)
    (hok : pump_accept_pubkey st o = .ok (st', p, effs)) :
    st'.session_id = st.session_id := by
  unfold pump_accept_pubkey at hok
  dsimp only at hok
  repeat' split at hok
  all_goals first
    | (injection hok with hok; injection hok with h1 h2; subst h1; rfl)
    | exact (accept_poll_step_session_id _ o _ st' p effs hok).trans rfl

/-- The `NewKeys` pump arm never touches the session id. -/
theorem pump_new_keys_session_id (st : CStateM) (o : PumpOracle) (st' : CStateM)
    (p : Pump) (effs : List Effect)
    (hok : pump_new_keys st o = .ok (st', p, effs)) :
    st'.session_id = st.session_id := by
  unfold pump_new_keys at hok
  dsimp only at hok
  repeat' split at hok
  all_goals try exact Except.noConfusion hok
  all_goals injection hok with hok
  all_goals injection hok with h1 h2
  all_goals subst h1
  all_goals first
    | rfl
    | (rename_i x1 st1 effs1 hsend x2 effs2 hext
       exact send_new_keys_session_id st o.hash st1 effs1 hsend)

/-- The `Done` pump arm never touches the session id. -/
theorem pump_done_session_id (st : CStateM) (o : PumpOracle) (st' : CStateM)
    (p : Pump) (effs : List Effect) (hok : pump_done st o = .ok (st', p, effs)) :
    st'.session_id = st.session_id := by
  unfold pump_done at hok
  injection hok with hok
  injection hok with h1 h2
  subst h1
  rfl

/-- Lemma: `pump_negotiate` preserves a set session id. -/
theorem pump_negotiate_session_id (st : CStateM) (o : PumpOracle) (st' : CStateM)
    (p : Pump) (effs : List Effect) (sid : List Nat)
    (hok : pump_negotiate st o = .ok (st', p, effs))
    (hsid : st.session_id = some sid) :
    st'.session_id = some sid := by
  unfold pump_negotiate at hok
  split at hok
  · rw [pump_idle_session_id st o st' p effs hok]; exact hsid
  · rw [pump_kex_init_session_id st o st' p effs hok]; exact hsid
  · exact pump_kex_session_id st o st' p effs sid hok hsid
  · rw [pump_accept_pubkey_session_id st o st' p effs hok]; exact hsid
  · rw [pump_new_keys_session_id st o st' p effs hok]; exact hsid
  · rw [pump_done_session_id st o st' p effs hok]; exact hsid

/-- Lemma: `recv_kex_init` never touches the session id. -/
theorem recv_kex_init_session_id (st : CStateM) (pk : KexInitPacketM)
    (st' : CStateM) (hok : recv_kex_init st pk = .ok st') :
    st'.session_id = st.session_id := by
  unfold recv_kex_init at hok
  dsimp only at hok
  repeat' split at hok
  all_goals try exact Except.noConfusion hok
  all_goals injection hok with h1
  all_goals subst h1
  all_goals rfl

/-- Lemma: `recv_new_keys` never touches the session id. -/
theorem recv_new_keys_session_id (st : CStateM) (h : HashFn) (st' : CStateM)
    (effs : List Effect) (hok : recv_new_keys st h = .ok (st', effs)) :
    st'.session_id = st.session_id := by
  unfold recv_new_keys at hok
  dsimp only at hok
  repeat' split at hok
  all_goals try exact Except.noConfusion hok
  all_goals injection hok with hok
  all_goals injection hok with h1 h2
  all_goals subst h1
  all_goals rfl

/-- Lemma: `recv_unimplemented` never touches the session id. -/
theorem recv_unimplemented_session_id (st : CStateM) (seq : Nat) (st' : CStateM)
    (consumed : Bool) (effs : List Effect)
    (hok : recv_unimplemented st seq = .ok (st', consumed, effs)) :
    st'.session_id = st.session_id := by
  unfold recv_unimplemented at hok
  try dsimp only at hok
  repeat' split at hok
  all_goals try exact Except.noConfusion hok
  all_goals injection hok with hok
  all_goals injection hok with h1 h2
  all_goals subst h1
  all_goals rfl

/-- C3: once the session id has been set (to the first exchange hash), no
operation of the negotiation state machine — pump tick, received KEXINIT,
NEWKEYS or UNIMPLEMENTED, or a rekey request — ever changes it; it is only
assigned when still unset. -/
theorem session_id_immutable (st : CStateM) (i : StepInput) (st' : CStateM)
    (effs : List Effect) (sid : List Nat)
    (hstep : step st i = .ok (st', effs)) (hsid : st.session_id = some sid) :
    st'.session_id = some sid := by
  cases i with
  | pump o =>
    simp only [step, Except.map] at hstep
    cases hp : pump_negotiate st o with
    | error e => rw [hp] at hstep; cases hstep
    | ok r =>
      rw [hp] at hstep
      injection hstep with hstep
      injection hstep with h1 h2
      subst h1
      exact pump_negotiate_session_id st o r.1 r.2.1 r.2.2 sid hp hsid
  | recvKexInit pk =>
    simp only [step, Except.map] at hstep
    cases hp : recv_kex_init st pk with
    | error e => rw [hp] at hstep; cases hstep
    | ok r =>
      rw [hp] at hstep
      injection hstep with hstep
      injection hstep with h1 h2
      subst h1
      rw [recv_kex_init_session_id st pk r hp]; exact hsid
  | recvNewKeys h =>
    simp only [step] at hstep
    rw [recv_new_keys_session_id st h st' effs hstep]; exact hsid
  | recvUnimplemented seq =>
    simp only [step, Except.map] at hstep
    cases hp : recv_unimplemented st seq with
    | error e => rw [hp] at hstep; cases hstep
    | ok r =>
      rw [hp] at hstep
      injection hstep with hstep
      injection hstep with h1 h2
      subst h1
      rw [recv_unimplemented_session_id st seq r.1 r.2.1 r.2.2 hp]; exact hsid
  | startKex tx =>
    simp only [step] at hstep
    injection hstep with hstep
    have h1 : (start_kex st tx).1 = st' := by rw [hstep]
    rw [← h1, start_kex_session_id st tx]; exact hsid

/-- Witness for `session_id_immutable`: a concrete pump step from the idle
over-threshold state keeps the session id. -/
theorem session_id_immutable_witness :
    ({ idleSt with
       negotiate_st := { idleSt.negotiate_st with state := .KexInit } } :
      CStateM).session_id = some [9] :=
  session_id_immutable idleSt (.pump sampleOracle)
    { idleSt with negotiate_st := { idleSt.negotiate_st with state := .KexInit } }
    [Effect.Wakeup] [9] (by rfl) rfl

/-! ### The NewKeys gate (C7) -/

/-- The gating invariant of the `NewKeys` state: in `AcceptPubkey` and
`NewKeys` the signature-verification witness is present, and in `NewKeys` the
explicit pubkey acceptance is present as well. -/
def PubkeyInv (st : CStateM) : Prop :=
  ((st.negotiate_st.state = .AcceptPubkey ∨ st.negotiate_st.state = .NewKeys) →
    st.negotiate_st.signature_verified = true) ∧
  (st.negotiate_st.state = .NewKeys → st.negotiate_st.pubkey_accepted = true)

/-- Lemma: `start_kex` preserves the NewKeys gate. -/
theorem start_kex_pubkey_inv (st : CStateM) (tx : Option Nat)
    (hInv : PubkeyInv st) : PubkeyInv (start_kex st tx).1 := by
  unfold start_kex
  unfold PubkeyInv at *
  repeat' split
  all_goals simp_all

/-- Lemma: `send_new_keys` does not modify the negotiation sub-state. -/
theorem send_new_keys_negotiate_st (st : CStateM) (h : HashFn) (st' : CStateM)
    (effs : List Effect) (hok : send_new_keys st h = .ok (st', effs)) :
    st'.negotiate_st = st.negotiate_st := by
  unfold send_new_keys at hok
  dsimp only at hok
  repeat' split at hok
  all_goals try exact Except.noConfusion hok
  all_goals injection hok with hok
  all_goals injection hok with h1 h2
  all_goals subst h1
  all_goals rfl

/-- The `Idle` pump arm preserves the NewKeys gate. -/
theorem pump_idle_pubkey_inv (st : CStateM) (o : PumpOracle) (st' : CStateM)
    (p : Pump) (effs : List Effect) (hInv : PubkeyInv st)
    (hok : pump_idle st o = .ok (st', p, effs)) : PubkeyInv st' := by
  unfold pump_idle at hok
  dsimp only at hok
  repeat' split at hok
  all_goals injection hok with hok
  all_goals injection hok with h1 h2
  all_goals subst h1
  all_goals first
    | exact start_kex_pubkey_inv st none hInv
    | exact hInv

/-- The `KexInit` pump arm preserves the NewKeys gate. -/
theorem pump_kex_init_pubkey_inv (st : CStateM) (o : PumpOracle) (st' : CStateM)
    (p : Pump) (effs : List Effect) (hInv : PubkeyInv st)
    (hok : pump_kex_init st o = .ok (st', p, effs)) : PubkeyInv st' := by
  unfold pump_kex_init send_kex_init at hok
  dsimp only at hok
  repeat' split at hok
  all_goals try exact Except.noConfusion hok
  all_goals injection hok with hok
  all_goals injection hok with h1 h2
  all_goals subst h1
  all_goals unfold PubkeyInv at *
  all_goals simp_all

/-- The `Kex` pump arm preserves the NewKeys gate (its successful exit carries
the freshly stored verification witness into `AcceptPubkey`). -/
theorem pump_kex_pubkey_inv (st : CStateM) (o : PumpOracle) (st' : CStateM)
    (p : Pump) (effs : List Effect) (hInv : PubkeyInv st)
    (hok : pump_kex st o = .ok (st', p, effs)) : PubkeyInv st' := by
  unfold pump_kex at hok
  dsimp only at hok
  repeat' split at hok
  all_goals try exact Except.noConfusion hok
  all_goals injection hok with hok
  all_goals injection hok with h1 h2
  all_goals subst h1
  all_goals unfold PubkeyInv at *
  all_goals simp_all

/-- The accept-oneshot poll preserves the NewKeys gate when entered from
`AcceptPubkey` with the witness present. -/
theorem accept_poll_step_pubkey_inv (st : CStateM) (o : PumpOracle)
    (effs0 : List Effect) (st' : CStateM) (p : Pump) (effs : List Effect)
    (hstate : st.negotiate_st.state = .AcceptPubkey)
    (hsv : st.negotiate_st.signature_verified = true)
    (hok : accept_poll_step st o effs0 = .ok (st', p, effs)) : PubkeyInv st' := by
  unfold accept_poll_step at hok
  dsimp only at hok
  repeat' split at hok
  all_goals try exact Except.noConfusion hok
  all_goals injection hok with hok
  all_goals injection hok with h1 h2
  all_goals subst h1
  all_goals unfold PubkeyInv
  all_goals simp_all

/-- The `AcceptPubkey` pump arm preserves the NewKeys gate. -/
theorem pump_accept_pubkey_pubkey_inv (st : CStateM) (o : PumpOracle)
    (st' : CStateM) (p : Pump) (effs : List Effect)
    (hstate : st.negotiate_st.state = .AcceptPubkey)
    (hsv : st.negotiate_st.signature_verified = true)
    (hok : pump_accept_pubkey st o = .ok (st', p, effs)) : PubkeyInv st' := by
  unfold pump_accept_pubkey at hok
  dsimp only at hok
  repeat' split at hok
  all_goals first
    | (injection hok with hok; injection hok with h1 h2; subst h1;
       exact ⟨fun _ => hsv, fun hnk => absurd (hstate ▸ hnk) (by simp [hstate])⟩)
    | (refine accept_poll_step_pubkey_inv _ o _ st' p effs ?_ ?_ hok <;>
        simp_all)

/-- The `NewKeys` pump arm preserves the NewKeys gate (its assertion guard
means a successful call implies both flags). -/
theorem pump_new_keys_pubkey_inv (st : CStateM) (o : PumpOracle) (st' : CStateM)
    (p : Pump) (effs : List Effect)
    (hok : pump_new_keys st o = .ok (st', p, effs)) : PubkeyInv st' := by
  unfold pump_new_keys at hok
  dsimp only at hok
  repeat' split at hok
  all_goals try exact Except.noConfusion hok
  all_goals injection hok with hok
  all_goals injection hok with h1 h2
  all_goals subst h1
  · rename_i hguard hsent x1 st1 effs1 hsend x2 effs2 hext
    have hng := send_new_keys_negotiate_st st o.hash st1 effs1 hsend
    unfold PubkeyInv
    simp only [Bool.not_eq_true', Bool.and_eq_false_iff] at hguard
    constructor <;> intro hst <;> simp_all
  all_goals unfold PubkeyInv at *
  all_goals simp_all

/-- The `Done` pump arm resets to the default (Idle) state, trivially
preserving the NewKeys gate. -/
theorem pump_done_pubkey_inv (st : CStateM) (o : PumpOracle) (st' : CStateM)
    (p : Pump) (effs : List Effect)
    (hok : pump_done st o = .ok (st', p, effs)) : PubkeyInv st' := by
  unfold pump_done at hok
  injection hok with hok
  injection hok with h1 h2
  subst h1
  unfold PubkeyInv
  simp [defaultNegotiateState]

/-- Lemma: `recv_kex_init` preserves the NewKeys gate. -/
theorem recv_kex_init_pubkey_inv (st : CStateM) (pk : KexInitPacketM)
    (st' : CStateM) (hInv : PubkeyInv st) (hok : recv_kex_init st pk = .ok st') :
    PubkeyInv st' := by
  unfold recv_kex_init at hok
  dsimp only at hok
  repeat' split at hok
  all_goals try exact Except.noConfusion hok
  all_goals injection hok with h1
  all_goals subst h1
  all_goals unfold PubkeyInv
  all_goals simp_all

/-- Lemma: `recv_new_keys` preserves the NewKeys gate. -/
theorem recv_new_keys_pubkey_inv (st : CStateM) (h : HashFn) (st' : CStateM)
    (effs : List Effect) (hInv : PubkeyInv st)
    (hok : recv_new_keys st h = .ok (st', effs)) : PubkeyInv st' := by
  unfold recv_new_keys at hok
  dsimp only at hok
  repeat' split at hok
  all_goals try exact Except.noConfusion hok
  all_goals injection hok with hok
  all_goals injection hok with h1 h2
  all_goals subst h1
  all_goals unfold PubkeyInv at *
  all_goals simp_all

/-- Lemma: `recv_unimplemented` preserves the NewKeys gate. -/
theorem recv_unimplemented_pubkey_inv (st : CStateM) (seq : Nat) (st' : CStateM)
    (consumed : Bool) (effs : List Effect) (hInv : PubkeyInv st)
    (hok : recv_unimplemented st seq = .ok (st', consumed, effs)) :
    PubkeyInv st' := by
  unfold recv_unimplemented at hok
  try dsimp only at hok
  repeat' split at hok
  all_goals try exact Except.noConfusion hok
  all_goals injection hok with hok
  all_goals injection hok with h1 h2
  all_goals subst h1
  all_goals unfold PubkeyInv at *
  all_goals simp_all [defaultNegotiateState]

/-- C7: the `NewKeys` state is only ever entered with both the
signature-verification witness and the explicit pubkey acceptance present
(the gate `PubkeyInv` holds initially and is preserved by every operation),
and when the application drops the accept handle without responding (the
oneshot reports closure) the negotiation fails with the `PubkeyAccept`
error. -/
theorem newkeys_gate (st : CStateM) (i : StepInput) (st' : CStateM)
    (effs : List Effect) (o2 : PumpOracle) (st2 : CStateM)
    (hInv : PubkeyInv st) (hstep : step st i = .ok (st', effs))
    (hstate2 : st2.negotiate_st.state = .AcceptPubkey)
    (hev2 : st2.negotiate_st.pubkey_event = false)
    (hrx2 : st2.negotiate_st.accepted_rx = true)
    (hdrop : o2.accept_poll = some (.error ())) :
    PubkeyInv st' ∧
    (st'.negotiate_st.state = .NewKeys →
      st'.negotiate_st.signature_verified = true ∧
      st'.negotiate_st.pubkey_accepted = true) ∧
    PubkeyInv { st with negotiate_st := init_negotiate } ∧
    pump_negotiate st2 o2 = .error .PubkeyAccept := by
  have hinv2 : PubkeyInv st' := by
    cases i with
    | pump o =>
      simp only [step, Except.map] at hstep
      cases hp : pump_negotiate st o with
      | error e => rw [hp] at hstep; cases hstep
      | ok r =>
        rw [hp] at hstep
        injection hstep with hstep
        injection hstep with h1 h2
        subst h1
        unfold pump_negotiate at hp
        split at hp
        · exact pump_idle_pubkey_inv st o r.1 r.2.1 r.2.2 hInv hp
        · exact pump_kex_init_pubkey_inv st o r.1 r.2.1 r.2.2 hInv hp
        · exact pump_kex_pubkey_inv st o r.1 r.2.1 r.2.2 hInv hp
        · rename_i hstate
          exact pump_accept_pubkey_pubkey_inv st o r.1 r.2.1 r.2.2 hstate
            (hInv.1 (Or.inl hstate)) hp
        · exact pump_new_keys_pubkey_inv st o r.1 r.2.1 r.2.2 hp
        · exact pump_done_pubkey_inv st o r.1 r.2.1 r.2.2 hp
    | recvKexInit pk =>
      simp only [step, Except.map] at hstep
      cases hp : recv_kex_init st pk with
      | error e => rw [hp] at hstep; cases hstep
      | ok r =>
        rw [hp] at hstep
        injection hstep with hstep
        injection hstep with h1 h2
        subst h1
        exact recv_kex_init_pubkey_inv st pk r hInv hp
    | recvNewKeys h =>
      simp only [step] at hstep
      exact recv_new_keys_pubkey_inv st h st' effs hInv hstep
    | recvUnimplemented seq =>
      simp only [step, Except.map] at hstep
      cases hp : recv_unimplemented st seq with
      | error e => rw [hp] at hstep; cases hstep
      | ok r =>
        rw [hp] at hstep
        injection hstep with hstep
        injection hstep with h1 h2
        subst h1
        exact recv_unimplemented_pubkey_inv st seq r.1 r.2.1 r.2.2 hInv hp
    | startKex tx =>
      simp only [step] at hstep
      injection hstep with hstep
      have h1 : (start_kex st tx).1 = st' := by rw [hstep]
      rw [← h1]
      exact start_kex_pubkey_inv st tx hInv
  refine ⟨hinv2, fun hnk => ⟨hinv2.1 (Or.inr hnk), hinv2.2 hnk⟩, ?_, ?_⟩
  · unfold PubkeyInv init_negotiate defaultNegotiateState
    simp
  · simp only [pump_negotiate, hstate2]
    unfold pump_accept_pubkey
    rw [hev2]
    unfold accept_poll_step
    rw [hrx2, hdrop]
    rfl

/-- A sample kex output record used by concrete witnesses. -/
def sampleKexOutput : KexOutputM :=
  { shared_secret := 5, exchange_hash := [9], server_pubkey := [],
    server_exchange_hash_sign := [] }

/-- A concrete state sitting in `AcceptPubkey` with the event already emitted,
used by witnesses. -/
def acceptSt : CStateM :=
  { config := sampleConfig
    session_id := some [9]
    negotiate_st := { defaultNegotiateState with
      state := .AcceptPubkey
      our_kex_init := some sampleOur
      their_kex_init := some sampleTheir
      algos := some sampleAlgos
      kex := true
      kex_output := some sampleKexOutput
      signature_verified := true
      pubkey_event := false
      accepted_rx := true }
    last_kex := init_last_kex 0
    authenticated := false
    recvd_bytes := 0
    sent_bytes := 0
    send_seq := 6 }

/-- The sample oracle with the accept handle dropped. -/
def droppedOracle : PumpOracle :=
  { sampleOracle with accept_poll := some (.error ()) }

/-- Witness for `newkeys_gate`: a concrete gate-preserving step and the
concrete dropped-handle failure. -/
theorem newkeys_gate_witness :
    PubkeyInv { idleSt with
      negotiate_st := { idleSt.negotiate_st with state := .KexInit } } ∧
    pump_negotiate acceptSt droppedOracle = .error .PubkeyAccept := by
  have h := newkeys_gate idleSt (.pump sampleOracle)
    { idleSt with negotiate_st := { idleSt.negotiate_st with state := .KexInit } }
    [Effect.Wakeup] droppedOracle acceptSt
    (by unfold PubkeyInv idleSt defaultNegotiateState; simp)
    (by rfl) (by rfl) (by rfl) (by rfl) (by rfl)
  exact ⟨h.1, h.2.2.2⟩

end Makiko
